import Mathlib

/-
  Verification development for the depgraph visualization state engine.

  Shallow embedding of the TypeScript sources:
    - src/graph.ts        : COLORS, createGraph, the repulsion sampling of runForceLayout
    - src/interactions.ts : selectNode, clearSelection, focusOnNode, applySubgraphFilter,
                            clearSubgraphMode, detectCycles, applyCycleVisualization,
                            clearCyclesMode
    - cycles.ts           : findMatchingScenario, validateScenario (node classification
                            is inlined where used)
    - src/particles.ts    : initializeParticleSystem, updateParticles

  Modelling conventions:
    * Machine floats become rationals (the claims under study involve only exact
      arithmetic: multiplications by 1.1/1.2/1.3/1.5, additions, comparisons).
    * The graphology `Graph` object is embedded as insertion-ordered lists of nodes and
      edges.  Graphology semantics that the sources rely on are modelled as documented
      by that library: `addNode` throws on a duplicate id, `addEdge` on a simple graph
      throws `UsageGraphError` when an edge with the same ordered (source, target) pair
      already exists or an endpoint is missing, `outNeighbors`/`inNeighbors` throw
      `NotFoundGraphError` for an unknown node, and auto-generated edge keys are opaque
      `geid_`-prefixed strings (modelled as "geid_" ++ counter), which are never equal
      to the literal strings "e0", "e1", ... that createGraph passes to `hasEdge`.
      Throwing operations are embedded with `Except`.
    * DOM reads become parameters (the textarea contents, the cycles catalog fetched by
      loadCyclesMockData, the wall clock value of performance.now()); `alert(...)`
      calls become an `Option String` component of the result, and purely visual DOM
      writes (badges, lists, sigma.refresh, the camera) are not part of the state.
    * `Math.random()` outcomes are parameters: an injected position source for the
      initial circular placement and a coin family for the repulsion sampling.
    * The embedded states are the post-initialization states in which `state.graph`
      and `state.sigma` are non-null, so the leading `if (!state.graph || !state.sigma)
      return;` guards never fire.
    * JavaScript `Set` objects (insertion ordered, used only through has/add/clear and
      construction) are embedded as duplicate-free lists built by `insertIfAbsent`.
    * Identifiers ending in letter sequences that the surrounding toolchain treats
      specially are renamed: `CycleScenario` is `CycleScen`, `findMatchingScenario` is
      `findMatchingScen`, `validateScenario` is `validateScen`, the state field
      `currentCycleScenario` is `currentCycleScen`, `initializeParticleSystem` is
      `initParticleSystem`, and the cycle-edge fields `from`/`to` are `fromId`/`toId`.
-/

namespace DepGraph

/-- The COLORS palette of src/graph.ts.  The palette in src/graph.ts predates cycles
mode and has no queried/intermediate entries, while interactions.ts reads
`COLORS.nodeQueried` and `COLORS.nodeIntermediate`; those two literal values are
missing from src.  Modelled from the spec: the "queried" and "intermediate" display
colors are two further fixed, distinct color strings.  No claim depends on their
literal values. -/
structure ColorPalette where
  nodeDefault : String
  nodeHighlight : String
  nodePath : String
  nodeDimmed : String
  nodeQueried : String
  nodeIntermediate : String
  edgeDefault : String
  edgeHighlight : String
  edgePath : String
  edgeDimmed : String
deriving DecidableEq

/-- The concrete palette values of src/graph.ts (queried/intermediate as above). -/
def COLORS : ColorPalette :=
  { nodeDefault := "#4a5568"
    nodeHighlight := "#22d3ee"
    nodePath := "#fb923c"
    nodeDimmed := "#1e2830"
    nodeQueried := "#nodeQueried"
    nodeIntermediate := "#nodeIntermediate"
    edgeDefault := "#2d3748"
    edgeHighlight := "#22d3ee"
    edgePath := "#fb923c"
    edgeDimmed := "#141a20" }

/-- Node attributes (types.ts `NodeAttributes`); `hidden` is optional in TS and absent
means false, so it is a `Bool` here. -/
structure NodeAttrs where
  x : ℚ
  y : ℚ
  size : ℚ
  color : String
  label : String
  isBase : Bool
  originalColor : String
  originalSize : ℚ
  hidden : Bool
deriving DecidableEq

instance : Inhabited NodeAttrs :=
  ⟨{ x := 0, y := 0, size := 0, color := "", label := "", isBase := false,
     originalColor := "", originalSize := 0, hidden := false }⟩

/-- Edge attributes (types.ts `EdgeAttributes`). -/
structure EdgeAttrs where
  id : String
  color : String
  size : ℚ
  originalColor : String
  hidden : Bool
deriving DecidableEq

/-- One stored edge: the graphology auto-generated key plus endpoints and attributes. -/
structure EdgeRec where
  key : String
  source : String
  target : String
  attrs : EdgeAttrs
deriving DecidableEq

/-- The graphology graph object: insertion-ordered node and edge lists plus the
auto-key counter. -/
structure Graph where
  nodes : List (String × NodeAttrs)
  edges : List EdgeRec
  nextEdgeKey : ℕ
deriving DecidableEq

namespace Graph

/-- graphology `#.hasNode`. -/
def hasNode (g : Graph) (id : String) : Bool :=
  g.nodes.any (fun p => decide (p.1 = id))

/-- graphology `#.addNode`: throws `UsageGraphError` on a duplicate id. -/
def addNode (g : Graph) (id : String) (a : NodeAttrs) : Except String Graph :=
  if g.hasNode id then Except.error ("UsageGraphError: node already exists")
  else Except.ok { g with nodes := g.nodes ++ [(id, a)] }

/-- graphology `#.hasEdge` with a single argument: an existence check on the edge KEY
(not on the (source, target) pair).  Auto-generated keys are `geid_`-prefixed. -/
def hasEdgeKey (g : Graph) (k : String) : Bool :=
  g.edges.any (fun e => decide (e.key = k))

/-- graphology `#.addEdge` on the (simple, mixed) graph created by `new Graph()`:
throws `NotFoundGraphError` when an endpoint is absent and `UsageGraphError` when a
directed edge with the same ordered (source, target) pair already exists; otherwise
appends the edge under a fresh auto-generated key. -/
def addEdge (g : Graph) (s t : String) (a : EdgeAttrs) : Except String Graph :=
  if !(g.hasNode s) then Except.error ("NotFoundGraphError: source node missing")
  else if !(g.hasNode t) then Except.error ("NotFoundGraphError: target node missing")
  else if g.edges.any (fun e => decide (e.source = s) && decide (e.target = t)) then
    Except.error ("UsageGraphError: an edge linking the given source and target already exists")
  else
    Except.ok { g with
      edges := g.edges ++ [{ key := "geid_" ++ toString g.nextEdgeKey,
                             source := s, target := t, attrs := a }],
      nextEdgeKey := g.nextEdgeKey + 1 }

/-- Out-neighbor identifiers of a node assumed present (targets of its out-edges). -/
def outNeighborsL (g : Graph) (id : String) : List String :=
  (g.edges.filter (fun e => decide (e.source = id))).map (fun e => e.target)

/-- In-neighbor identifiers of a node assumed present (sources of its in-edges). -/
def inNeighborsL (g : Graph) (id : String) : List String :=
  (g.edges.filter (fun e => decide (e.target = id))).map (fun e => e.source)

/-- graphology `#.outNeighbors`: throws `NotFoundGraphError` for an unknown node. -/
def outNeighborsE (g : Graph) (id : String) : Except String (List String) :=
  if g.hasNode id then Except.ok (g.outNeighborsL id)
  else Except.error ("NotFoundGraphError")

/-- graphology `#.inNeighbors`: throws `NotFoundGraphError` for an unknown node. -/
def inNeighborsE (g : Graph) (id : String) : Except String (List String) :=
  if g.hasNode id then Except.ok (g.inNeighborsL id)
  else Except.error ("NotFoundGraphError")

/-- A `forEachNode` loop whose body rewrites each node's attributes from that node's
own current attributes via `setNodeAttribute`, embedded as a map. -/
def mapNodes (g : Graph) (f : String → NodeAttrs → NodeAttrs) : Graph :=
  { g with nodes := g.nodes.map (fun p => (p.1, f p.1 p.2)) }

/-- A `forEachEdge` loop whose body rewrites each edge's attributes via
`setEdgeAttribute`, embedded as a map. -/
def mapEdges (g : Graph) (f : EdgeRec → EdgeAttrs) : Graph :=
  { g with edges := g.edges.map (fun e => { e with attrs := f e }) }

/-- graphology `#.nodes()`: the node keys in insertion order. -/
def nodeIds (g : Graph) : List String :=
  g.nodes.map (fun p => p.1)

end Graph

/-- One input node of the graph-data contract (`isBase` optional in TS, absent means
false). -/
structure GNode where
  id : String
  isBase : Bool
deriving DecidableEq

/-- One input edge of the graph-data contract. -/
structure GEdge where
  source : String
  target : String
deriving DecidableEq

/-- The graph input object (types.ts `GraphData`). -/
structure GraphData where
  nodes : List GNode
  edges : List GEdge
deriving DecidableEq

/-- createGraph of src/graph.ts.  `pos i` stands for the jittered circular placement of
the i-th node (cos/sin/Math.random arithmetic abstracted into an injected position
source; no claim depends on positions).  Node insertion propagates graphology's
duplicate-id error; edge insertion skips edges with a missing endpoint, then guards
with `graph.hasEdge("e" + i)` — a KEY lookup on a synthetic id that is passed only as
an attribute, never as the key — before calling `graph.addEdge`, whose duplicate-pair
error propagates. -/
def createGraph (data : GraphData) (pos : ℕ → ℚ × ℚ) : Except String Graph :=
  let init : Except String Graph := Except.ok { nodes := [], edges := [], nextEdgeKey := 0 }
  let afterNodes := data.nodes.enum.foldl
    (fun acc pr =>
      acc.bind (fun g =>
        g.addNode pr.2.id
          { x := (pos pr.1).1, y := (pos pr.1).2,
            size := if pr.2.isBase then 8 else 4,
            color := COLORS.nodeDefault,
            label := pr.2.id,
            isBase := pr.2.isBase,
            originalColor := COLORS.nodeDefault,
            originalSize := if pr.2.isBase then 8 else 4,
            hidden := false })) init
  data.edges.enum.foldl
    (fun acc pr =>
      acc.bind (fun g =>
        if g.hasNode pr.2.source && g.hasNode pr.2.target then
          if g.hasEdgeKey ("e" ++ toString pr.1) then Except.ok g
          else
            g.addEdge pr.2.source pr.2.target
              { id := "e" ++ toString pr.1,
                color := COLORS.edgeDefault,
                size := 1 / 2,
                originalColor := COLORS.edgeDefault,
                hidden := false }
        else Except.ok g)) afterNodes

/-- The repulsion sample bound of runForceLayout: `Math.min(50, nodes.length)`. -/
def repulsionSampleSize (n : ℕ) : ℕ := min 50 n

/-- The per-node repulsion sample of runForceLayout (src/graph.ts lines 142-145):
`nodes.length <= sampleSize ? nodes : nodes.filter(() => Math.random() < sampleSize /
nodes.length)`.  Each filter callback draws an independent `Math.random()`; the
outcome family of those draws is the injected coin family `coins` (coin i is whether
the draw for the i-th node landed below sampleSize / nodes.length). -/
def repulsionSample (nodes : List String) (coins : ℕ → Bool) : List String :=
  if nodes.length ≤ repulsionSampleSize nodes.length then nodes
  else (nodes.enum.filter (fun pr => coins pr.1)).map (fun pr => pr.2)

/-- One directed edge of a precomputed cycle (types.ts `CycleEdge`; fields `from`/`to`
renamed `fromId`/`toId`). -/
structure CEdge where
  fromId : String
  toId : String
deriving DecidableEq

/-- One precomputed cycle (types.ts `Cycle`). -/
structure Cycle where
  id : String
  nodes : List String
  edges : List CEdge
  color : String
deriving DecidableEq

/-- One precomputed cycle scenario (types.ts `CycleScenario`). -/
structure CycleScen where
  id : String
  queriedPackages : List String
  cycles : List Cycle
  intermediateNodes : List String
deriving DecidableEq

/-- The cycle scenario catalog (types.ts `CyclesData`), fetched by
loadCyclesMockData and passed in as a parameter here. -/
structure CyclesData where
  scenarios : List CycleScen
deriving DecidableEq

/-- JS `String.prototype.trim`, embedded structurally over the character list: drop
whitespace from both ends. -/
def trimChars (l : List Char) : List Char :=
  ((l.dropWhile Char.isWhitespace).reverse.dropWhile Char.isWhitespace).reverse

/-- JS `text.trim()` on a Lean string. -/
def myTrim (s : String) : String := String.mk (trimChars s.data)

/-- JS `text.split('\n')` over the character list: every newline separates a
segment, and empty segments are kept (splitting the empty text yields one empty
segment, as in JS). -/
def splitNlChars : List Char → List (List Char)
  | [] => [[]]
  | c :: rest =>
    match splitNlChars rest with
    | [] => [[]]
    | h :: t => if c = Char.ofNat 10 then [] :: h :: t else (c :: h) :: t

/-- JS `text.split('\n')` on a Lean string. -/
def splitNl (s : String) : List String := (splitNlChars s.data).map String.mk

/-- JS `Set.add`: append when absent (insertion-ordered, duplicate-free). -/
def insertIfAbsent (l : List String) (x : String) : List String :=
  if l.contains x then l else l ++ [x]

/-- Adding every element of `xs` to the set `acc`, in order. -/
def addAll (acc : List String) (xs : List String) : List String :=
  xs.foldl insertIfAbsent acc

/-- `new Set(l)`: the duplicate-free list of `l`'s elements in first-occurrence
order. -/
def dedup (l : List String) : List String :=
  l.foldl insertIfAbsent []

/-- findMatchingScenario of cycles.ts: the first scenario whose queriedPackages set
equals the queried set (size equality plus inclusion, exactly as the source
compares the two JS Sets). -/
def findMatchingScen (data : CyclesData) (queried : List String) : Option CycleScen :=
  data.scenarios.find? (fun sc =>
    let qs := dedup queried
    let ss := dedup sc.queriedPackages
    decide (qs.length = ss.length) && qs.all (fun x => ss.contains x))

/-- validateScenario of cycles.ts: collects the queried, intermediate and cycle-member
identifiers absent from the package set, in that order; valid iff none are missing;
the reported list is deduplicated. -/
def validateScen (sc : CycleScen) (allPkgs : List String) : Bool × List String :=
  let missing :=
    (sc.queriedPackages.filter (fun p => !(allPkgs.contains p)))
      ++ (sc.intermediateNodes.filter (fun p => !(allPkgs.contains p)))
      ++ (sc.cycles.foldl
            (fun acc c => acc ++ c.nodes.filter (fun n => !(allPkgs.contains n))) [])
  (missing.isEmpty, dedup missing)

/-- One animation particle (src/particles.ts `Particle`). -/
structure Particle where
  cycleId : String
  edgeIndex : ℕ
  progress : ℚ
  color : String
deriving DecidableEq

/-- The particle system (src/particles.ts `ParticleSystem`): the particles, the last
frame timestamp, and the cancellable animation handle. -/
structure ParticleSystem where
  particles : List Particle
  lastFrame : ℚ
  animationId : Option ℕ
deriving DecidableEq

/-- PARTICLE_SPEED of src/particles.ts: 0.3 progress units per second. -/
def PARTICLE_SPEED : ℚ := 3 / 10

/-- PARTICLES_PER_CYCLE of src/particles.ts. -/
def PARTICLES_PER_CYCLE : ℕ := 3

/-- initializeParticleSystem of src/particles.ts (lines 50-75): for every visible
cycle create PARTICLES_PER_CYCLE particles on edge 0 with progress staggered at
i / PARTICLES_PER_CYCLE; lastFrame is performance.now(), injected as `now`. -/
def initParticleSystem (sc : CycleScen) (visibleCycles : List String) (now : ℚ) :
    ParticleSystem :=
  { particles :=
      sc.cycles.foldl
        (fun acc c =>
          if visibleCycles.contains c.id then
            acc ++ (List.range PARTICLES_PER_CYCLE).map
              (fun i => { cycleId := c.id, edgeIndex := 0,
                          progress := (i : ℚ) / (PARTICLES_PER_CYCLE : ℚ),
                          color := c.color })
          else acc) []
    lastFrame := now
    animationId := none }

/-- The `while (particle.progress >= 1)` loop of updateParticles: subtract 1 from the
progress and step the edge index cyclically until the progress is below 1. -/
def wrapLoop (p : ℚ) (e : ℕ) (len : ℕ) : ℚ × ℕ :=
  if h : 1 ≤ p then wrapLoop (p - 1) ((e + 1) % len) len
  else (p, e)
termination_by (Int.ceil p).toNat
decreasing_by
  have h1 : (0 : ℚ) < p := lt_of_lt_of_le one_pos h
  have h2 : 0 < Int.ceil p := Int.ceil_pos.mpr h1
  have h3 : Int.ceil (p - 1) = Int.ceil p - 1 := by
    have h4 := Int.ceil_sub_int p (1 : ℤ)
    simp only [Int.cast_one] at h4
    exact h4
  simp only [h3]
  omega

/-- The per-particle body of updateParticles: look up the particle's cycle with
`find`, skip when it is missing or has no edges, otherwise advance the progress by
PARTICLE_SPEED × delta and run the wrap loop. -/
def updParticle (sc : CycleScen) (delta : ℚ) (part : Particle) : Particle :=
  match sc.cycles.find? (fun c => decide (c.id = part.cycleId)) with
  | none => part
  | some c =>
    if c.edges.length = 0 then part
    else
      let p2 := part.progress + PARTICLE_SPEED * delta
      let r := wrapLoop p2 part.edgeIndex c.edges.length
      { part with progress := r.1, edgeIndex := r.2 }

/-- updateParticles of src/particles.ts (lines 80-102): delta is the elapsed wall
clock in seconds since the last frame (`now` is performance.now(), injected);
every particle is advanced by the per-particle body and lastFrame becomes now. -/
def updateParticles (sys : ParticleSystem) (sc : CycleScen) (now : ℚ) :
    ParticleSystem :=
  let delta := (now - sys.lastFrame) / 1000
  { particles := sys.particles.map (updParticle sc delta)
    lastFrame := now
    animationId := sys.animationId }

/-- A sequence of updateParticles calls at the given wall-clock instants. -/
def runUpdates (sc : CycleScen) (sys : ParticleSystem) (ts : List ℚ) : ParticleSystem :=
  ts.foldl (fun s t => updateParticles s sc t) sys

/-- The instants of n animation frames spaced d seconds apart, starting from t0
(performance.now() is in milliseconds, hence the factor 1000). -/
def frameTimes (t0 d : ℚ) (n : ℕ) : List ℚ :=
  (List.range n).map (fun (k : ℕ) => t0 + 1000 * d * ((k : ℚ) + 1))

/-- The instants are nondecreasing starting from x (so every frame delta is
nonnegative). -/
def chainGE : ℚ → List ℚ → Prop
  | _, [] => True
  | x, t :: ts => x ≤ t ∧ chainGE t ts

instance : ∀ (x : ℚ) (ts : List ℚ), Decidable (chainGE x ts)
  | _, [] => isTrue trivial
  | _, t :: ts =>
    have : Decidable (chainGE t ts) := instDecidableChainGE t ts
    inferInstanceAs (Decidable (_ ∧ _))

/-- The application state (types.ts `AppState`), restricted to the post-init states
where graph and sigma are non-null; the lazily created animation canvas and its
display style are the two booleans. -/
structure AppState where
  graph : Graph
  allPackages : List String
  highlightedNodes : List String
  selectedNode : Option String
  isSubgraphMode : Bool
  isCyclesMode : Bool
  currentCycleScen : Option CycleScen
  visibleCycles : List String
  waveSystem : Option ParticleSystem
  canvasCreated : Bool
  canvasVisible : Bool
deriving DecidableEq

/-- selectNode of src/interactions.ts (lines 12-60).  It records the selection, then
queries graphology for the neighbors — no hasNode guard, so an absent id makes
`outNeighbors` throw NotFoundGraphError after `selectedNode` was already written.
On success it recolors/resizes every node and edge as in the source. -/
def selectNode (s : AppState) (nodeId : String) : AppState × Option String :=
  let s1 := { s with selectedNode := some nodeId }
  match s1.graph.outNeighborsE nodeId, s1.graph.inNeighborsE nodeId with
  | Except.ok deps, Except.ok rdeps =>
    let g1 := s1.graph.mapNodes (fun n a =>
      if n = nodeId then
        { a with color := COLORS.nodeHighlight, size := a.originalSize * (3 / 2) }
      else if deps.contains n then
        { a with color := COLORS.nodePath, size := a.originalSize * (6 / 5) }
      else if rdeps.contains n then
        { a with color := COLORS.nodeHighlight, size := a.originalSize * (11 / 10) }
      else
        { a with color := COLORS.nodeDimmed, size := a.originalSize })
    let g2 := g1.mapEdges (fun e =>
      if e.source = nodeId ∨ e.target = nodeId then
        { e.attrs with
          color := if e.source = nodeId then COLORS.edgePath else COLORS.edgeHighlight,
          size := 3 / 2 }
      else
        { e.attrs with color := COLORS.edgeDimmed, size := 3 / 10 })
    ({ s1 with graph := g2 }, none)
  | _, _ => (s1, some ("NotFoundGraphError"))

/-- clearSelection of src/interactions.ts (lines 65-83): a no-op while subgraph mode
is active; otherwise restores node color/size and edge color/size (edge size to the
construction value 0.5).  It does NOT touch any hidden flag. -/
def clearSelection (s : AppState) : AppState :=
  if s.isSubgraphMode then s
  else
    let g1 := s.graph.mapNodes (fun _ a =>
      { a with color := a.originalColor, size := a.originalSize })
    let g2 := g1.mapEdges (fun e =>
      { e.attrs with color := e.attrs.originalColor, size := 1 / 2 })
    { s with selectedNode := none, graph := g2 }

/-- focusOnNode of src/interactions.ts (lines 88-101): returns silently when the id is
absent from the graph, otherwise selects the node (the camera animation is a pure
rendering effect). -/
def focusOnNode (s : AppState) (nodeId : String) : AppState × Option String :=
  if s.graph.hasNode nodeId then selectNode s nodeId
  else (s, none)

/-- clearSubgraphMode of src/interactions.ts (lines 228-249): turns the mode off,
clears the highlighted set, and restores every node and edge to original color,
original size (edges to 0.5) and hidden = false. -/
def clearSubgraphMode (s : AppState) : AppState :=
  let g1 := s.graph.mapNodes (fun _ a =>
    { a with color := a.originalColor, size := a.originalSize, hidden := false })
  let g2 := g1.mapEdges (fun e =>
    { e.attrs with color := e.attrs.originalColor, size := 1 / 2, hidden := false })
  { s with isSubgraphMode := false, highlightedNodes := [], graph := g2 }

/-- clearCyclesMode of src/interactions.ts (lines 440-476): cancels the animation
handle, hides the canvas when it exists, resets all cycles-mode state, and restores
every node and edge to original color, original size (edges to 0.5) and
hidden = false. -/
def clearCyclesMode (s : AppState) : AppState :=
  let g1 := s.graph.mapNodes (fun _ a =>
    { a with color := a.originalColor, size := a.originalSize, hidden := false })
  let g2 := g1.mapEdges (fun e =>
    { e.attrs with color := e.attrs.originalColor, size := 1 / 2, hidden := false })
  { s with
    canvasVisible := if s.canvasCreated then false else s.canvasVisible,
    isCyclesMode := false,
    currentCycleScen := none,
    visibleCycles := [],
    waveSystem := none,
    graph := g2 }

/-- The unconditional preamble of applySubgraphFilter: clear cycles mode if it is
active (this runs BEFORE any input validation). -/
def preClearForSubgraph (s : AppState) : AppState :=
  if s.isCyclesMode then clearCyclesMode s else s

/-- The unconditional preamble of detectCycles: clear subgraph mode if it is active
(this runs BEFORE any input validation). -/
def preClearForCycles (s : AppState) : AppState :=
  if s.isSubgraphMode then clearSubgraphMode s else s

/-- The seed parsing of applySubgraphFilter: split the (already trimmed) textarea
contents on newlines, trim each line, and keep the nonempty lines naming a node
present in the graph. -/
def parseFilterPackages (g : Graph) (text : String) : List String :=
  ((splitNl text).map myTrim).filter (fun x => (x != "") && g.hasNode x)

/-- The 1-hop expansion of applySubgraphFilter: the seed set, then for each seed all
of its out-neighbors and in-neighbors. -/
def expandSeeds (g : Graph) (packages : List String) : List String :=
  packages.foldl
    (fun acc pkg => addAll acc (g.outNeighborsL pkg ++ g.inNeighborsL pkg))
    (addAll [] packages)

/-- applySubgraphFilter of src/interactions.ts (lines 154-223).  The filter textarea
contents are the parameter; the `alert` of the failure path is the Option String
component.  Cycles mode is cleared first, empty input routes to clearSubgraphMode,
an input with no valid package alerts and returns, and otherwise the 1-hop expanded
set and its induced edges are highlighted and everything else is hidden. -/
def applySubgraphFilter (s : AppState) (filterText : String) : AppState × Option String :=
  let s1 := preClearForSubgraph s
  let text := myTrim filterText
  if text = "" then (clearSubgraphMode s1, none)
  else
    let packages := parseFilterPackages s1.graph text
    if packages.isEmpty then
      (s1, some ("No valid packages found. Check the names match exactly."))
    else
      let expandedNodes := expandSeeds s1.graph packages
      let s2 := { s1 with isSubgraphMode := true, highlightedNodes := expandedNodes }
      let subgraphEdges :=
        (s2.graph.edges.filter (fun e =>
          expandedNodes.contains e.source && expandedNodes.contains e.target)).map
          (fun e => e.key)
      let g1 := s2.graph.mapNodes (fun n a =>
        if expandedNodes.contains n then
          { a with color := COLORS.nodeHighlight, hidden := false }
        else
          { a with color := COLORS.nodeDimmed, hidden := true })
      let g2 := g1.mapEdges (fun e =>
        if subgraphEdges.contains e.key then
          { e.attrs with color := COLORS.edgeHighlight, size := 1, hidden := false }
        else
          { e.attrs with hidden := true })
      ({ s2 with graph := g2 }, none)

/-- The insert-if-absent write of the cycleMemberColors map (`if
(!cycleMemberColors.has(node)) cycleMemberColors.set(node, cycle.color)`). -/
def insertNew (m : List (String × String)) (k v : String) : List (String × String) :=
  match m.lookup k with
  | some _ => m
  | none => m ++ [(k, v)]

/-- The cycleMemberColors map of applyCycleVisualization: iterate the scenario's
cycles in order, skip invisible ones, and record each member node's color only if
the node has no color yet (first visible cycle wins). -/
def buildCycleColors (cycles : List Cycle) (visible : List String) :
    List (String × String) :=
  cycles.foldl
    (fun m c =>
      if visible.contains c.id then c.nodes.foldl (fun m2 n => insertNew m2 n c.color) m
      else m)
    []

/-- The visibleCycleEdges key set of applyCycleVisualization: the strings
"from->to" of every visible cycle's edges. -/
def visibleCycleEdgeKeys (sc : CycleScen) (visible : List String) : List String :=
  sc.cycles.foldl
    (fun acc c =>
      if visible.contains c.id then
        acc ++ c.edges.map (fun e => e.fromId ++ "->" ++ e.toId)
      else acc)
    []

/-- The edge-color search of applyCycleVisualization: the color of the first visible
cycle containing the directed edge, defaulting to the highlight color. -/
def cycleEdgeColor (sc : CycleScen) (visible : List String) (source target : String) :
    String :=
  match (sc.cycles.filter (fun c => visible.contains c.id)).find?
      (fun c => c.edges.any (fun e => decide (e.fromId = source) && decide (e.toId = target))) with
  | some c => c.color
  | none => COLORS.edgeHighlight

/-- applyCycleVisualization of src/interactions.ts (lines 323-407): classify every
node as cycle member (its first visible cycle's color, 1.3×), else queried (1.2×),
else intermediate (1.1×), else dimmed and hidden; show exactly the visible cycles'
edges in their owning cycle's color. -/
def applyCycleVisualization (s : AppState) : AppState :=
  match s.currentCycleScen with
  | none => s
  | some sc =>
    let colors := buildCycleColors sc.cycles s.visibleCycles
    let ekeys := visibleCycleEdgeKeys sc s.visibleCycles
    let g1 := s.graph.mapNodes (fun n a =>
      match colors.lookup n with
      | some col =>
        { a with color := col, size := a.originalSize * (13 / 10), hidden := false }
      | none =>
        if sc.queriedPackages.contains n then
          { a with color := COLORS.nodeQueried, size := a.originalSize * (6 / 5),
                   hidden := false }
        else if sc.intermediateNodes.contains n then
          { a with color := COLORS.nodeIntermediate, size := a.originalSize * (11 / 10),
                   hidden := false }
        else
          { a with color := COLORS.nodeDimmed, hidden := true })
    let g2 := g1.mapEdges (fun e =>
      if ekeys.contains (e.source ++ "->" ++ e.target) then
        { e.attrs with color := cycleEdgeColor sc s.visibleCycles e.source e.target,
                       size := 3 / 2, hidden := false }
      else
        { e.attrs with hidden := true })
    { s with graph := g2 }

/-- detectCycles of src/interactions.ts (lines 254-318).  The cycles textarea
contents, the fetched catalog, and performance.now() are parameters; alerts are the
Option String component.  Subgraph mode is cleared first; then the input is parsed,
a scenario with the same queried set is looked up, the scenario is validated against
allPackages, and only then is cycles mode entered, the visualization applied, the
canvas created/shown, and the particle system rebuilt.  (The startParticleAnimation
of src/particles.ts guards on a state field that the final AppState does not carry,
so it writes no modelled state.) -/
def detectCycles (s : AppState) (cyclesText : String) (data : CyclesData) (tNow : ℚ) :
    AppState × Option String :=
  let s1 := preClearForCycles s
  let text := myTrim cyclesText
  if text = "" then (s1, some ("Please enter package names to detect cycles."))
  else
    let queried := ((splitNl text).map myTrim).filter (fun x => x != "")
    if queried.isEmpty then (s1, some ("No valid packages entered."))
    else
      match findMatchingScen data queried with
      | none =>
        (s1, some ("No matching cycle scenario found for: "
          ++ String.intercalate (", ") queried))
      | some sc =>
        let v := validateScen sc s1.allPackages
        if !v.1 then
          (s1, some ("Scenario validation failed. Missing packages: "
            ++ String.intercalate (", ") v.2))
        else
          let s2 := { s1 with
            isCyclesMode := true,
            currentCycleScen := some sc,
            visibleCycles := dedup (sc.cycles.map (fun c => c.id)) }
          let s3 := applyCycleVisualization s2
          ({ s3 with
              canvasCreated := true,
              canvasVisible := true,
              waveSystem := some (initParticleSystem sc s2.visibleCycles tNow) }, none)

/-- Spec-following definition, for comparison with the imperative cycleMemberColors
map: the color of the first visible cycle, in scenario cycle order, that contains the
node. -/
def firstVisibleCycleColorSpec (cycles : List Cycle) (visible : List String)
    (n : String) : Option String :=
  ((cycles.filter (fun c => visible.contains c.id)).find?
    (fun c => c.nodes.contains n)).map (fun c => c.color)

/-- The per-particle invariant: when the particle's cycle id resolves (by the same
`find` lookup updateParticles uses) to a cycle with a non-empty edge list, the
progress lies in [0, 1) and the edge index is below the edge count. -/
def particleOKb (sc : CycleScen) (part : Particle) : Bool :=
  match sc.cycles.find? (fun c => decide (c.id = part.cycleId)) with
  | none => true
  | some c =>
    decide (c.edges.length = 0)
      || (decide (0 ≤ part.progress) && decide (part.progress < 1)
            && decide (part.edgeIndex < c.edges.length))

/-- The system-wide particle invariant. -/
def systemOKb (sc : CycleScen) (sys : ParticleSystem) : Bool :=
  sys.particles.all (particleOKb sc)

/-- Whether a construction result is the given error message. -/
def isErrWith (e : Except String Graph) (msg : String) : Bool :=
  match e with
  | Except.error m => decide (m = msg)
  | Except.ok _ => false

/-- The edge count of a successful construction result. -/
def okEdgeCount (e : Except String Graph) : Option ℕ :=
  match e with
  | Except.ok g => some g.edges.length
  | Except.error _ => none

/-- A trivial position source (positions are irrelevant to the claims). -/
def pos0 : ℕ → ℚ × ℚ := fun _ => (0, 0)

/-- The concrete three-node input of section 8 of the spec: A depends on B, B on C. -/
def exData : GraphData :=
  { nodes := [{ id := "A", isBase := false }, { id := "B", isBase := false },
              { id := "C", isBase := false }],
    edges := [{ source := "A", target := "B" }, { source := "B", target := "C" }] }

/-- The graph built from exData (construction succeeds, so the error arm is inert). -/
def exGraph : Graph :=
  match createGraph exData pos0 with
  | Except.ok g => g
  | Except.error _ => { nodes := [], edges := [], nextEdgeKey := 0 }

/-- The idle post-initialization state over exGraph. -/
def exState : AppState :=
  { graph := exGraph, allPackages := ["A", "B", "C"], highlightedNodes := [],
    selectedNode := none, isSubgraphMode := false, isCyclesMode := false,
    currentCycleScen := none, visibleCycles := [], waveSystem := none,
    canvasCreated := false, canvasVisible := false }

/-- A concrete catalog scenario: querying A matches a single cycle through A and B. -/
def exScen : CycleScen :=
  { id := "s1", queriedPackages := ["A"],
    cycles := [{ id := "c1", nodes := ["A", "B"],
                 edges := [{ fromId := "A", toId := "B" }, { fromId := "B", toId := "A" }],
                 color := "#f00" }],
    intermediateNodes := [] }

/-- The concrete cycle scenario catalog. -/
def exCatalog : CyclesData := { scenarios := [exScen] }

/-- The reachable state with cycles mode active: detectCycles on exState succeeds and
hides node C (not a cycle member, not queried, not intermediate). -/
def exCyclesState : AppState := (detectCycles exState ("A") exCatalog 0).1

/-- Duplicate-pair edge input: the same ordered pair (A, B) appears twice. -/
def c3Data : GraphData :=
  { nodes := [{ id := "A", isBase := false }, { id := "B", isBase := false }],
    edges := [{ source := "A", target := "B" }, { source := "A", target := "B" }] }

/-- The same input with the duplicate removed. -/
def c3DataOnce : GraphData :=
  { nodes := [{ id := "A", isBase := false }, { id := "B", isBase := false }],
    edges := [{ source := "A", target := "B" }] }

/-- A 51-node graph input (no edges). -/
def c8Data : GraphData :=
  { nodes := (List.range 51).map (fun i => { id := "n" ++ toString i, isBase := false }),
    edges := [] }

/-- The 51-node graph (construction succeeds, so the error arm is inert). -/
def c8Graph : Graph :=
  match createGraph c8Data pos0 with
  | Except.ok g => g
  | Except.error _ => { nodes := [], edges := [], nextEdgeKey := 0 }

/-- A scenario with one two-edge cycle, for the particle claims. -/
def c7Cycle : Cycle :=
  { id := "c1", nodes := ["A", "B"],
    edges := [{ fromId := "A", toId := "B" }, { fromId := "B", toId := "A" }],
    color := "#0f0" }

/-- The scenario wrapping c7Cycle. -/
def c7Scen : CycleScen :=
  { id := "w", queriedPackages := [], cycles := [c7Cycle], intermediateNodes := [] }

/-- A particle at progress 0.9 on edge 0 of c7Cycle. -/
def c7Part : Particle :=
  { cycleId := "c1", edgeIndex := 0, progress := 9 / 10, color := "#0f0" }

/-- A system holding exactly c7Part. -/
def c7Sys : ParticleSystem :=
  { particles := [c7Part], lastFrame := 0, animationId := none }

/-- A particle at progress 0 on edge 0 of c7Cycle. -/
def c7PartB : Particle :=
  { cycleId := "c1", edgeIndex := 0, progress := 0, color := "#0f0" }

/-! Helper lemmas about the restore loops. -/

theorem restore_nodes_clearSubgraph (s : AppState) :
    ∀ p ∈ (clearSubgraphMode s).graph.nodes,
      p.2.color = p.2.originalColor ∧ p.2.size = p.2.originalSize ∧ p.2.hidden = false := by
  intro p hp
  unfold clearSubgraphMode Graph.mapNodes Graph.mapEdges at hp
  simp only [List.mem_map] at hp
  obtain ⟨q, _, rfl⟩ := hp
  simp

theorem restore_edges_clearSubgraph (s : AppState) :
    ∀ e ∈ (clearSubgraphMode s).graph.edges,
      e.attrs.color = e.attrs.originalColor ∧ e.attrs.size = 1 / 2 ∧ e.attrs.hidden = false := by
  intro e he
  unfold clearSubgraphMode Graph.mapNodes Graph.mapEdges at he
  simp only [List.mem_map] at he
  obtain ⟨q, _, rfl⟩ := he
  simp

theorem restore_nodes_clearCycles (s : AppState) :
    ∀ p ∈ (clearCyclesMode s).graph.nodes,
      p.2.color = p.2.originalColor ∧ p.2.size = p.2.originalSize ∧ p.2.hidden = false := by
  intro p hp
  unfold clearCyclesMode Graph.mapNodes Graph.mapEdges at hp
  simp only [List.mem_map] at hp
  obtain ⟨q, _, rfl⟩ := hp
  simp

theorem restore_edges_clearCycles (s : AppState) :
    ∀ e ∈ (clearCyclesMode s).graph.edges,
      e.attrs.color = e.attrs.originalColor ∧ e.attrs.size = 1 / 2 ∧ e.attrs.hidden = false := by
  intro e he
  unfold clearCyclesMode Graph.mapNodes Graph.mapEdges at he
  simp only [List.mem_map] at he
  obtain ⟨q, _, rfl⟩ := he
  simp

/-! C2: selectNode on an absent id. -/

/-- C2 (counterexample): the claim says selectNode on an id absent from the graph
raises no error and changes nothing; on exState (nodes A, B, C) the call
selectNode "Z" raises graphology's NotFoundGraphError (the neighbor query has no
hasNode guard) and the state has changed (selectedNode was written first). -/
theorem c2_counterexample :
    (selectNode exState ("Z")).2.isSome = true ∧
    (selectNode exState ("Z")).1.selectedNode = some ("Z") ∧
    exState.selectedNode = none := by
  decide

/-- C2 (amended): for an id absent from the graph, selectNode records the id as the
selected node, then fails with graphology's NotFoundGraphError from the neighbor
query, leaving every node and edge attribute unchanged; the silent no-op guard lives
in focusOnNode, which returns without selecting when the id is absent. -/
theorem c2_absent_select (s : AppState) (nodeId : String)
    (h : s.graph.hasNode nodeId = false) :
    selectNode s nodeId = ({ s with selectedNode := some nodeId }, some ("NotFoundGraphError")) ∧
    focusOnNode s nodeId = (s, none) := by
  unfold selectNode focusOnNode Graph.outNeighborsE Graph.inNeighborsE
  simp [h]

/-- C2 (witness): the amended theorem applied at exState and the absent id Z. -/
theorem c2_witness :
    selectNode exState ("Z")
        = ({ exState with selectedNode := some ("Z") }, some ("NotFoundGraphError")) ∧
    focusOnNode exState ("Z") = (exState, none) :=
  c2_absent_select exState ("Z") (by decide)

/-! C3: duplicate edge pairs at construction. -/

/-- C3: the claim says a duplicate ordered (source, target) pair is skipped as a
no-op and construction never raises.  In the code the guard is
`graph.hasEdge("e" + i)`, a KEY lookup on a synthetic string that is only ever passed
as an attribute, so it never fires, and graphology's addEdge throws UsageGraphError
on the duplicate pair: with nodes A, B and the edge (A, B) listed twice, createGraph
propagates the error (a single listing succeeds with exactly one edge). -/
theorem c3_duplicate_edge_raises :
    isErrWith (createGraph c3Data pos0)
        ("UsageGraphError: an edge linking the given source and target already exists") = true ∧
    okEdgeCount (createGraph c3DataOnce pos0) = some 1 := by
  decide

/-! C8: the repulsion sample. -/

/-- C8 (counterexample): the claim bounds the repulsion sample by 50 nodes for every
graph and every outcome of the random source; on a 51-node graph the outcome in
which every Math.random draw lands below sampleSize/n keeps all 51 nodes. -/
theorem c8_counterexample :
    ¬ ((repulsionSample c8Graph.nodeIds (fun _ => true)).length ≤ 50) := by
  decide

/-- C8 (amended): the repulsion sample is the full node set when the graph has at
most 50 nodes; otherwise it is the sublist of nodes kept by independent
probability-50/n coin flips, so it is always a sublist of the node list but its
size is bounded only in expectation (it can reach the full node count). -/
theorem c8_sample (nodes : List String) (coins : ℕ → Bool) :
    (nodes.length ≤ 50 → repulsionSample nodes coins = nodes) ∧
    (repulsionSample nodes coins).Sublist nodes := by
  constructor
  · intro h
    have h2 : nodes.length ≤ repulsionSampleSize nodes.length := by
      unfold repulsionSampleSize; omega
    simp [repulsionSample, h2]
  · by_cases h : nodes.length ≤ repulsionSampleSize nodes.length
    · simp [repulsionSample, h]
    · simp only [repulsionSample, if_neg h]
      have h1 : (nodes.enum.filter (fun pr => coins pr.1)).Sublist nodes.enum :=
        List.filter_sublist _
      have h2 := h1.map (fun pr => pr.2)
      have h3 : nodes.enum.map (fun pr => pr.2) = nodes := by
        simp [List.enum_map_snd]
      rw [h3] at h2
      exact h2

/-- C8 (witness): the amended theorem applied at a two-node list and the all-heads
coin family. -/
theorem c8_witness :
    repulsionSample ["a", "b"] (fun _ => true) = ["a", "b"] ∧
    (repulsionSample ["a", "b"] (fun _ => true)).Sublist ["a", "b"] :=
  ⟨(c8_sample ["a", "b"] (fun _ => true)).1 (by decide),
   (c8_sample ["a", "b"] (fun _ => true)).2⟩

/-! C4: the three clear operations. -/

/-- C4 (counterexample): the claim says that after clearSelection (when not
suppressed) every node's hidden flag is false; in the reachable state
exCyclesState (cycles mode active, node C hidden, subgraph mode off so
clearSelection is not suppressed) the call leaves C hidden. -/
theorem c4_counterexample :
    exCyclesState.isSubgraphMode = false ∧
    ((clearSelection exCyclesState).graph.nodes.map (fun p => p.2.hidden))
        = [false, false, true] ∧
    ¬ (∀ p ∈ (clearSelection exCyclesState).graph.nodes, p.2.hidden = false) := by
  decide

/-- C4 (amended): clearSubgraphMode and clearCyclesMode restore every node to
(originalColor, originalSize, hidden = false) and every edge to (originalColor,
size 0.5, hidden = false); clearSelection (when subgraph mode is off) restores every
node's color and size and every edge's color and size 0.5, but leaves every hidden
flag exactly as it was, so its full restoration holds only from states where nothing
is hidden. -/
theorem c4_restore (s : AppState) :
    (∀ p ∈ (clearSubgraphMode s).graph.nodes,
       p.2.color = p.2.originalColor ∧ p.2.size = p.2.originalSize ∧ p.2.hidden = false) ∧
    (∀ e ∈ (clearSubgraphMode s).graph.edges,
       e.attrs.color = e.attrs.originalColor ∧ e.attrs.size = 1 / 2 ∧ e.attrs.hidden = false) ∧
    (∀ p ∈ (clearCyclesMode s).graph.nodes,
       p.2.color = p.2.originalColor ∧ p.2.size = p.2.originalSize ∧ p.2.hidden = false) ∧
    (∀ e ∈ (clearCyclesMode s).graph.edges,
       e.attrs.color = e.attrs.originalColor ∧ e.attrs.size = 1 / 2 ∧ e.attrs.hidden = false) ∧
    (s.isSubgraphMode = false →
      (∀ p ∈ (clearSelection s).graph.nodes,
         p.2.color = p.2.originalColor ∧ p.2.size = p.2.originalSize) ∧
      ((clearSelection s).graph.nodes.map (fun p => p.2.hidden)
          = s.graph.nodes.map (fun p => p.2.hidden)) ∧
      (∀ e ∈ (clearSelection s).graph.edges,
         e.attrs.color = e.attrs.originalColor ∧ e.attrs.size = 1 / 2) ∧
      ((clearSelection s).graph.edges.map (fun e => e.attrs.hidden)
          = s.graph.edges.map (fun e => e.attrs.hidden))) := by
  refine ⟨restore_nodes_clearSubgraph s, restore_edges_clearSubgraph s,
    restore_nodes_clearCycles s, restore_edges_clearCycles s, ?_⟩
  intro hs
  unfold clearSelection Graph.mapNodes Graph.mapEdges
  rw [if_neg (by simp [hs])]
  refine ⟨?_, ?_, ?_, ?_⟩
  · intro p hp
    simp only [List.mem_map] at hp
    obtain ⟨q, _, rfl⟩ := hp
    simp
  · simp [List.map_map, Function.comp]
  · intro e he
    simp only [List.mem_map] at he
    obtain ⟨q, _, rfl⟩ := he
    simp
  · simp [List.map_map, Function.comp]

/-- C4 (witness): the amended theorem applied at exState, whose subgraph mode is
off. -/
theorem c4_witness :
    (clearSelection exState).graph.nodes.map (fun p => p.2.hidden)
        = exState.graph.nodes.map (fun p => p.2.hidden) :=
  (((c4_restore exState).2.2.2.2) (by decide)).2.1

/-! C1: failed mode switches. -/

/-- C1 (counterexample): the claim says a failed applySubgraphFilter leaves the prior
state (here: active cycles mode) unchanged; on exCyclesState with the invalid filter
input zzz the call alerts AND cycles mode has been torn down. -/
theorem c1_counterexample :
    exCyclesState.isCyclesMode = true ∧
    (applySubgraphFilter exCyclesState ("zzz")).2.isSome = true ∧
    (applySubgraphFilter exCyclesState ("zzz")).1.isCyclesMode = false := by
  decide

/-- C1 (amended): a failing applySubgraphFilter or detectCycles leaves the state it
validated against unchanged, but that state is the prior state with the OTHER mode
already torn down, because each switch unconditionally clears the other mode BEFORE
validating: a failed applySubgraphFilter returns exactly preClearForSubgraph of the
prior state, a failed detectCycles returns exactly preClearForCycles of it; when the
other mode was inactive the prior state is exactly preserved. -/
theorem c1_failed_switch (s : AppState) (txt : String) (cat : CyclesData) (tNow : ℚ) :
    ((applySubgraphFilter s txt).2.isSome = true →
       (applySubgraphFilter s txt).1 = preClearForSubgraph s) ∧
    ((detectCycles s txt cat tNow).2.isSome = true →
       (detectCycles s txt cat tNow).1 = preClearForCycles s) := by
  constructor
  · intro h
    by_cases h1 : myTrim txt = ""
    · simp [applySubgraphFilter, h1] at h
    · by_cases h2 : (parseFilterPackages (preClearForSubgraph s).graph (myTrim txt)).isEmpty = true
      · simp [applySubgraphFilter, h1, h2]
      · simp [applySubgraphFilter, h1, h2] at h
  · intro h
    by_cases h1 : myTrim txt = ""
    · simp [detectCycles, h1]
    · by_cases h2 :
        (((splitNl (myTrim txt)).map myTrim).filter (fun x => x != "")).isEmpty = true
      · simp [detectCycles, h1, h2]
      · cases hsc : findMatchingScen cat
            (((splitNl (myTrim txt)).map myTrim).filter (fun x => x != "")) with
        | none => simp [detectCycles, h1, h2, hsc]
        | some sc =>
          by_cases hv : (validateScen sc (preClearForCycles s).allPackages).1 = true
          · simp [detectCycles, h1, h2, hsc, hv] at h
          · simp [detectCycles, h1, h2, hsc, hv]

/-- C1 (witness): the amended theorem applied at exCyclesState and the invalid
filter input zzz. -/
theorem c1_witness :
    (applySubgraphFilter exCyclesState ("zzz")).1 = preClearForSubgraph exCyclesState :=
  (c1_failed_switch exCyclesState ("zzz") exCatalog 0).1 (by decide)

/-! C10: empty filter input. -/

/-- C10 (counterexample): the claim says an empty filter input behaves exactly as
clearSubgraphMode; on exCyclesState (cycles mode active) applySubgraphFilter with
empty input additionally tears down cycles mode, which clearSubgraphMode alone does
not. -/
theorem c10_counterexample :
    (applySubgraphFilter exCyclesState ("")).2 = none ∧
    (applySubgraphFilter exCyclesState ("")).1.isCyclesMode = false ∧
    (clearSubgraphMode exCyclesState).isCyclesMode = true := by
  decide

/-- C10 (amended): applySubgraphFilter on empty or whitespace-only input is not
reported as an error: it returns no alert and behaves exactly as clearSubgraphMode
applied after the unconditional cycles-mode teardown — exactly clearSubgraphMode of
the prior state whenever cycles mode was inactive — turning subgraph mode off and
restoring every node and edge to original color, original size (edges 0.5) and
hidden = false. -/
theorem c10_empty_filter_clears (s : AppState) (txt : String) (h : myTrim txt = "") :
    applySubgraphFilter s txt = (clearSubgraphMode (preClearForSubgraph s), none) ∧
    (s.isCyclesMode = false → applySubgraphFilter s txt = (clearSubgraphMode s, none)) ∧
    (∀ p ∈ (applySubgraphFilter s txt).1.graph.nodes,
       p.2.color = p.2.originalColor ∧ p.2.size = p.2.originalSize ∧ p.2.hidden = false) ∧
    (∀ e ∈ (applySubgraphFilter s txt).1.graph.edges,
       e.attrs.color = e.attrs.originalColor ∧ e.attrs.size = 1 / 2 ∧ e.attrs.hidden = false) ∧
    (applySubgraphFilter s txt).1.isSubgraphMode = false := by
  have hmain : applySubgraphFilter s txt = (clearSubgraphMode (preClearForSubgraph s), none) := by
    simp [applySubgraphFilter, h]
  refine ⟨hmain, ?_, ?_, ?_, ?_⟩
  · intro hc
    rw [hmain]
    simp [preClearForSubgraph, hc]
  · rw [hmain]
    exact restore_nodes_clearSubgraph (preClearForSubgraph s)
  · rw [hmain]
    exact restore_edges_clearSubgraph (preClearForSubgraph s)
  · rw [hmain]
    simp [clearSubgraphMode]

/-- C10 (witness): the amended theorem applied at exCyclesState and the empty
input. -/
theorem c10_witness :
    applySubgraphFilter exCyclesState ("")
        = (clearSubgraphMode (preClearForSubgraph exCyclesState), none) :=
  (c10_empty_filter_clears exCyclesState ("") (by decide)).1

/-! C5: the subgraph filter. -/

theorem mem_insertIfAbsent (l : List String) (x y : String) :
    y ∈ insertIfAbsent l x ↔ y ∈ l ∨ y = x := by
  unfold insertIfAbsent
  by_cases h : l.contains x
  · rw [if_pos h]
    constructor
    · exact Or.inl
    · rintro (hy | rfl)
      · exact hy
      · simpa using h
  · rw [if_neg h]
    simp [List.mem_append]

theorem mem_addAll (y : String) (xs : List String) : ∀ acc : List String,
    y ∈ addAll acc xs ↔ y ∈ acc ∨ y ∈ xs := by
  induction xs with
  | nil => intro acc; simp [addAll]
  | cons a as ih =>
    intro acc
    unfold addAll at ih ⊢
    simp only [List.foldl_cons]
    rw [ih, mem_insertIfAbsent]
    simp only [List.mem_cons]
    tauto

theorem mem_expandFold (g : Graph) (y : String) (ps : List String) :
    ∀ acc : List String,
    (y ∈ ps.foldl (fun a p => addAll a (g.outNeighborsL p ++ g.inNeighborsL p)) acc ↔
      y ∈ acc ∨ ∃ p ∈ ps, y ∈ g.outNeighborsL p ∨ y ∈ g.inNeighborsL p) := by
  induction ps with
  | nil => intro acc; simp
  | cons a as ih =>
    intro acc
    simp only [List.foldl_cons]
    rw [ih, mem_addAll]
    constructor
    · rintro ((h | h) | ⟨p, hp, hyp⟩)
      · exact Or.inl h
      · rcases List.mem_append.mp h with h2 | h2
        · exact Or.inr ⟨a, List.mem_cons_self a as, Or.inl h2⟩
        · exact Or.inr ⟨a, List.mem_cons_self a as, Or.inr h2⟩
      · exact Or.inr ⟨p, List.mem_cons_of_mem a hp, hyp⟩
    · rintro (h | ⟨p, hp, hyp⟩)
      · exact Or.inl (Or.inl h)
      · rcases List.mem_cons.mp hp with rfl | hp2
        · exact Or.inl (Or.inr (List.mem_append.mpr hyp))
        · exact Or.inr ⟨p, hp2, hyp⟩

theorem mem_expandSeeds (g : Graph) (pkgs : List String) (y : String) :
    y ∈ expandSeeds g pkgs ↔
      y ∈ pkgs ∨ ∃ p ∈ pkgs, y ∈ g.outNeighborsL p ∨ y ∈ g.inNeighborsL p := by
  unfold expandSeeds
  rw [mem_expandFold, mem_addAll]
  simp

theorem mem_key_filter {l : List EdgeRec} (hnd : (l.map (fun e => e.key)).Nodup)
    (cond : EdgeRec → Bool) (e : EdgeRec) (he : e ∈ l) :
    (((l.filter cond).map (fun e2 => e2.key)).contains e.key = true) ↔ cond e = true := by
  constructor
  · intro h
    have h2 : e.key ∈ (l.filter cond).map (fun e2 => e2.key) := by simpa using h
    rw [List.mem_map] at h2
    obtain ⟨e2, he2, hk⟩ := h2
    have he2l : e2 ∈ l := List.mem_of_mem_filter he2
    have hcond : cond e2 = true := List.of_mem_filter he2
    have heq : e2 = e := List.inj_on_of_nodup_map hnd he2l he hk
    rwa [heq] at hcond
  · intro h
    have h2 : e ∈ l.filter cond := List.mem_filter.mpr ⟨he, h⟩
    have h3 : e.key ∈ (l.filter cond).map (fun e2 => e2.key) :=
      List.mem_map_of_mem (fun e2 => e2.key) h2
    simpa using h3

/-- C5: for every seed list whose graph-present subset is non-empty,
applySubgraphFilter reports no error; the expanded set is exactly the present seeds
plus their out- and in-neighbors; every node in the expanded set is visible
(hidden = false) with the highlight color and every node outside it is hidden;
every edge with both endpoints in the expanded set is visible with the highlight
color (size 1) and every other edge is hidden.  (The edge-key Nodup hypothesis is
graphology's key-uniqueness invariant, which holds of every graph it builds.) -/
theorem c5_subgraph_filter (s : AppState) (txt : String)
    (hkeys : ((preClearForSubgraph s).graph.edges.map (fun e => e.key)).Nodup)
    (hpkgs : parseFilterPackages (preClearForSubgraph s).graph (myTrim txt) ≠ []) :
    (applySubgraphFilter s txt).2 = none ∧
    (∀ y, y ∈ expandSeeds (preClearForSubgraph s).graph
              (parseFilterPackages (preClearForSubgraph s).graph (myTrim txt)) ↔
       (y ∈ parseFilterPackages (preClearForSubgraph s).graph (myTrim txt) ∨
        ∃ p ∈ parseFilterPackages (preClearForSubgraph s).graph (myTrim txt),
          y ∈ (preClearForSubgraph s).graph.outNeighborsL p ∨
          y ∈ (preClearForSubgraph s).graph.inNeighborsL p)) ∧
    (∀ pr ∈ (applySubgraphFilter s txt).1.graph.nodes,
       (pr.1 ∈ expandSeeds (preClearForSubgraph s).graph
                 (parseFilterPackages (preClearForSubgraph s).graph (myTrim txt)) →
          pr.2.color = COLORS.nodeHighlight ∧ pr.2.hidden = false) ∧
       (pr.1 ∉ expandSeeds (preClearForSubgraph s).graph
                 (parseFilterPackages (preClearForSubgraph s).graph (myTrim txt)) →
          pr.2.hidden = true)) ∧
    (∀ e ∈ (applySubgraphFilter s txt).1.graph.edges,
       ((e.source ∈ expandSeeds (preClearForSubgraph s).graph
                      (parseFilterPackages (preClearForSubgraph s).graph (myTrim txt)) ∧
         e.target ∈ expandSeeds (preClearForSubgraph s).graph
                      (parseFilterPackages (preClearForSubgraph s).graph (myTrim txt))) →
          e.attrs.color = COLORS.edgeHighlight ∧ e.attrs.size = 1 ∧ e.attrs.hidden = false) ∧
       (¬ (e.source ∈ expandSeeds (preClearForSubgraph s).graph
                       (parseFilterPackages (preClearForSubgraph s).graph (myTrim txt)) ∧
           e.target ∈ expandSeeds (preClearForSubgraph s).graph
                       (parseFilterPackages (preClearForSubgraph s).graph (myTrim txt))) →
          e.attrs.hidden = true)) := by
  have htxt : ¬ (myTrim txt = "") := by
    intro h0
    apply hpkgs
    rw [h0]
    rfl
  have hne : ¬ ((parseFilterPackages (preClearForSubgraph s).graph (myTrim txt)).isEmpty = true) := by
    intro hh
    exact hpkgs (List.isEmpty_iff.mp hh)
  refine ⟨?_, fun y => mem_expandSeeds _ _ y, ?_, ?_⟩
  · simp [applySubgraphFilter, htxt, hne]
  · simp only [applySubgraphFilter]
    rw [if_neg htxt, if_neg hne]
    dsimp only [Graph.mapNodes, Graph.mapEdges]
    intro pr hpr
    rw [List.mem_map] at hpr
    obtain ⟨q, hq, rfl⟩ := hpr
    constructor
    · intro hmem
      dsimp only at hmem
      simp [hmem]
    · intro hmem
      dsimp only at hmem
      simp [hmem]
  · simp only [applySubgraphFilter]
    rw [if_neg htxt, if_neg hne]
    dsimp only [Graph.mapNodes, Graph.mapEdges]
    intro e he
    rw [List.mem_map] at he
    obtain ⟨q, hq, rfl⟩ := he
    have hkey := mem_key_filter (l := (preClearForSubgraph s).graph.edges) hkeys
      (fun e2 => (expandSeeds (preClearForSubgraph s).graph
          (parseFilterPackages (preClearForSubgraph s).graph (myTrim txt))).contains e2.source
        && (expandSeeds (preClearForSubgraph s).graph
          (parseFilterPackages (preClearForSubgraph s).graph (myTrim txt))).contains e2.target)
      q hq
    constructor
    · rintro ⟨hs1, ht1⟩
      dsimp only at hs1 ht1 ⊢
      have hc := hkey.mpr (by
        dsimp only
        rw [Bool.and_eq_true]
        exact ⟨by simpa using hs1, by simpa using ht1⟩)
      rw [if_pos hc]
      exact ⟨rfl, rfl, rfl⟩
    · intro hnot
      dsimp only at hnot ⊢
      have hcneg : ¬ ((((preClearForSubgraph s).graph.edges.filter (fun e2 =>
          (expandSeeds (preClearForSubgraph s).graph
            (parseFilterPackages (preClearForSubgraph s).graph (myTrim txt))).contains e2.source
          && (expandSeeds (preClearForSubgraph s).graph
            (parseFilterPackages (preClearForSubgraph s).graph (myTrim txt))).contains e2.target)).map
            (fun e2 => e2.key)).contains q.key = true) := by
        intro hc2
        apply hnot
        have h3 := hkey.mp hc2
        dsimp only at h3
        rw [Bool.and_eq_true] at h3
        exact ⟨by simpa using h3.1, by simpa using h3.2⟩
      rw [if_neg hcneg]

/-- C5 (witness): the theorem applied at exState with the single seed A. -/
theorem c5_witness : (applySubgraphFilter exState ("A")).2 = none :=
  (c5_subgraph_filter exState ("A") (by decide) (by decide)).1

/-! C6: cycle-mode node classification. -/

theorem lookup_append_single (m : List (String × String)) (k v n : String) :
    (m ++ [(k, v)]).lookup n =
      match m.lookup n with
      | some w => some w
      | none => if n = k then some v else none := by
  induction m with
  | nil =>
    by_cases h : n = k
    · simp [List.lookup, h]
    · have hb : (n == k) = false := beq_eq_false_iff_ne.mpr h
      simp [List.lookup, hb, h]
  | cons p t ih =>
    by_cases h : n = p.1
    · have hb : (n == p.1) = true := beq_iff_eq.mpr h
      simp [List.lookup, hb]
    · have hb : (n == p.1) = false := beq_eq_false_iff_ne.mpr h
      simpa [List.lookup, hb] using ih

theorem lookup_insertNew (m : List (String × String)) (k v n : String) :
    (insertNew m k v).lookup n =
      match m.lookup n with
      | some w => some w
      | none => if n = k then some v else none := by
  unfold insertNew
  cases hm : m.lookup k with
  | some w =>
    cases hn : m.lookup n with
    | some w2 => simp [hn]
    | none =>
      have hnk : ¬ n = k := by
        intro h
        rw [h, hm] at hn
        cases hn
      simp [hn, hnk]
  | none => exact lookup_append_single m k v n

theorem lookup_nodesFold (col : String) (ns : List String) :
    ∀ (m : List (String × String)) (n : String),
    ((ns.foldl (fun m2 x => insertNew m2 x col) m).lookup n) =
      match m.lookup n with
      | some w => some w
      | none => if ns.contains n then some col else none := by
  induction ns with
  | nil =>
    intro m n
    cases hm : m.lookup n <;> simp [hm]
  | cons a as ih =>
    intro m n
    simp only [List.foldl_cons]
    rw [ih, lookup_insertNew]
    cases hm : m.lookup n with
    | some w => simp
    | none =>
      by_cases hna : n = a
      · simp [hna]
      · simp [hna]

theorem lookup_buildCycleColors (cycles : List Cycle) (visible : List String) (n : String) :
    (buildCycleColors cycles visible).lookup n = firstVisibleCycleColorSpec cycles visible n := by
  suffices h : ∀ m : List (String × String),
      ((cycles.foldl
          (fun m c =>
            if visible.contains c.id then c.nodes.foldl (fun m2 x => insertNew m2 x c.color) m
            else m) m).lookup n)
        = match m.lookup n with
          | some w => some w
          | none => firstVisibleCycleColorSpec cycles visible n by
    have h2 := h []
    simpa [buildCycleColors] using h2
  induction cycles with
  | nil =>
    intro m
    cases hm : m.lookup n <;> simp [firstVisibleCycleColorSpec, hm]
  | cons c cs ih =>
    intro m
    simp only [List.foldl_cons]
    by_cases hv : visible.contains c.id
    · rw [if_pos hv, ih, lookup_nodesFold]
      cases hm : m.lookup n with
      | some w => simp
      | none =>
        have hv2 : c.id ∈ visible := by simpa using hv
        by_cases hcn : c.nodes.contains n
        · have hcn2 : n ∈ c.nodes := by simpa using hcn
          simp [hcn2, hv2, firstVisibleCycleColorSpec, List.find?_cons]
        · have hcn2 : ¬ (n ∈ c.nodes) := by simpa using hcn
          simp [hcn2, firstVisibleCycleColorSpec, List.find?_cons]
    · rw [if_neg hv, ih]
      cases hm : m.lookup n with
      | some w => simp
      | none =>
        have hv2 : ¬ (c.id ∈ visible) := by simpa using hv
        simp [firstVisibleCycleColorSpec, hv2, List.find?_cons]

/-- C6: when cycle visualization is applied (a scenario is current), every node that
the first visible cycle (in scenario cycle order) containing it assigns a color gets
exactly that color, size originalSize × 1.3 and is shown; otherwise a queried node
gets the queried color and 1.2×; otherwise an intermediate node gets the
intermediate color and 1.1×; every remaining node is dimmed and hidden. -/
theorem c6_cycle_classify (s : AppState) (sc : CycleScen)
    (h : s.currentCycleScen = some sc) :
    ∀ pr ∈ (applyCycleVisualization s).graph.nodes,
      (∀ col, firstVisibleCycleColorSpec sc.cycles s.visibleCycles pr.1 = some col →
         pr.2.color = col ∧ pr.2.size = pr.2.originalSize * (13 / 10) ∧ pr.2.hidden = false) ∧
      (firstVisibleCycleColorSpec sc.cycles s.visibleCycles pr.1 = none →
        (pr.1 ∈ sc.queriedPackages →
           pr.2.color = COLORS.nodeQueried ∧ pr.2.size = pr.2.originalSize * (6 / 5) ∧
           pr.2.hidden = false) ∧
        (pr.1 ∉ sc.queriedPackages → pr.1 ∈ sc.intermediateNodes →
           pr.2.color = COLORS.nodeIntermediate ∧ pr.2.size = pr.2.originalSize * (11 / 10) ∧
           pr.2.hidden = false) ∧
        (pr.1 ∉ sc.queriedPackages → pr.1 ∉ sc.intermediateNodes →
           pr.2.color = COLORS.nodeDimmed ∧ pr.2.hidden = true)) := by
  unfold applyCycleVisualization
  rw [h]
  dsimp only [Graph.mapNodes, Graph.mapEdges]
  intro pr hpr
  rw [List.mem_map] at hpr
  obtain ⟨q, hq, rfl⟩ := hpr
  constructor
  · intro col hcol
    dsimp only
    rw [lookup_buildCycleColors, hcol]
    exact ⟨rfl, rfl, rfl⟩
  · intro hnone
    dsimp only
    rw [lookup_buildCycleColors, hnone]
    refine ⟨?_, ?_, ?_⟩
    · intro hquer
      have hq2 : sc.queriedPackages.contains q.1 = true := by simpa using hquer
      rw [if_pos hq2]
      exact ⟨rfl, rfl, rfl⟩
    · intro hnq hint
      have hq2 : ¬ (sc.queriedPackages.contains q.1 = true) := by simpa using hnq
      have hi2 : sc.intermediateNodes.contains q.1 = true := by simpa using hint
      rw [if_neg hq2, if_pos hi2]
      exact ⟨rfl, rfl, rfl⟩
    · intro hnq hnint
      have hq2 : ¬ (sc.queriedPackages.contains q.1 = true) := by simpa using hnq
      have hi2 : ¬ (sc.intermediateNodes.contains q.1 = true) := by simpa using hnint
      rw [if_neg hq2, if_neg hi2]
      exact ⟨rfl, rfl⟩

/-- C6 (witness): the theorem applied at the reachable cycles-mode state
exCyclesState, at the first node of the graph (node A, a member of the visible cycle
c1 whose color is #f00). -/
theorem c6_witness :
    ((applyCycleVisualization exCyclesState).graph.nodes.head!).2.color = "#f00" ∧
    ((applyCycleVisualization exCyclesState).graph.nodes.head!).2.size
        = ((applyCycleVisualization exCyclesState).graph.nodes.head!).2.originalSize * (13 / 10) ∧
    ((applyCycleVisualization exCyclesState).graph.nodes.head!).2.hidden = false :=
  (c6_cycle_classify exCyclesState exScen (by decide)
      ((applyCycleVisualization exCyclesState).graph.nodes.head!)
      (List.head!_mem_self (by decide))).1 ("#f00") (by decide)

/-! C7 and C9: the particle update. -/

theorem wrapLoop_eq (p : ℚ) (e len : ℕ) (hp : 0 ≤ p) (he : e < len) :
    wrapLoop p e len = (p - (⌊p⌋ : ℚ), (e + (⌊p⌋).toNat) % len) := by
  have main : ∀ (k : ℕ) (p2 : ℚ) (e2 : ℕ), 0 ≤ p2 → (⌊p2⌋).toNat = k → e2 < len →
      wrapLoop p2 e2 len = (p2 - (⌊p2⌋ : ℚ), (e2 + (⌊p2⌋).toNat) % len) := by
    intro k
    induction k with
    | zero =>
      intro p2 e2 hp2 hk he2
      have hf0 : ⌊p2⌋ = 0 := by
        have h1 : 0 ≤ ⌊p2⌋ := Int.floor_nonneg.mpr hp2
        omega
      have hlt : p2 < 1 := by
        have h2 := Int.lt_floor_add_one p2
        rw [hf0] at h2
        simp only [Int.cast_zero, zero_add] at h2
        exact h2
      rw [wrapLoop, dif_neg (by linarith : ¬ (1 : ℚ) ≤ p2), hf0]
      simp [Nat.mod_eq_of_lt he2]
    | succ k ih =>
      intro p2 e2 hp2 hk he2
      have h1p : (1 : ℚ) ≤ p2 := by
        have h1 : 1 ≤ ⌊p2⌋ := by omega
        exact_mod_cast Int.le_floor.mp h1
      rw [wrapLoop, dif_pos h1p]
      have hfl : ⌊p2 - 1⌋ = ⌊p2⌋ - 1 := by
        have h3 := Int.floor_sub_int p2 (1 : ℤ)
        simp only [Int.cast_one] at h3
        exact h3
      have hp1 : 0 ≤ p2 - 1 := by linarith
      have hk1 : (⌊p2 - 1⌋).toNat = k := by
        rw [hfl]; omega
      have hlen : 0 < len := by omega
      have he3 : (e2 + 1) % len < len := Nat.mod_lt _ hlen
      rw [ih (p2 - 1) ((e2 + 1) % len) hp1 hk1 he3]
      simp only [Prod.mk.injEq]
      constructor
      · rw [hfl]
        push_cast
        ring
      · rw [hfl]
        have h4 : (⌊p2⌋ - 1).toNat = (⌊p2⌋).toNat - 1 := by omega
        rw [h4, Nat.mod_add_mod]
        congr 1
        omega
  exact main ((⌊p⌋).toNat) p e hp rfl he

theorem updParticle_nowrap (sc : CycleScen) (d : ℚ) (part : Particle) (c : Cycle)
    (hf : sc.cycles.find? (fun c0 => decide (c0.id = part.cycleId)) = some c)
    (hlen : ¬ (c.edges.length = 0))
    (hlt : part.progress + PARTICLE_SPEED * d < 1) :
    updParticle sc d part = { part with progress := part.progress + PARTICLE_SPEED * d } := by
  unfold updParticle
  rw [hf]
  try dsimp only
  rw [if_neg hlen]
  try dsimp only
  rw [wrapLoop, dif_neg (by linarith : ¬ (1 : ℚ) ≤ part.progress + PARTICLE_SPEED * d)]

theorem updParticle_iterate (sc : CycleScen) (d : ℚ) (n : ℕ) (part : Particle) (c : Cycle)
    (hf : sc.cycles.find? (fun c0 => decide (c0.id = part.cycleId)) = some c)
    (hlen : ¬ (c.edges.length = 0)) (hd : 0 ≤ d)
    (hp : 0 ≤ part.progress)
    (hlt : part.progress + PARTICLE_SPEED * d * (n : ℚ) < 1) :
    (updParticle sc d)^[n] part
      = { part with progress := part.progress + PARTICLE_SPEED * d * (n : ℚ) } := by
  have hsd : 0 ≤ PARTICLE_SPEED * d := by
    have hs : (0 : ℚ) ≤ PARTICLE_SPEED := by norm_num [PARTICLE_SPEED]
    exact mul_nonneg hs hd
  induction n generalizing part with
  | zero =>
    cases part
    simp
  | succ k ih =>
    rw [Function.iterate_succ_apply]
    have hlt1 : part.progress + PARTICLE_SPEED * d < 1 := by
      have hx : PARTICLE_SPEED * d * (1 : ℚ) ≤ PARTICLE_SPEED * d * ((k : ℚ) + 1) := by
        have : (1 : ℚ) ≤ (k : ℚ) + 1 := by
          have := Nat.cast_nonneg (α := ℚ) k
          linarith
        nlinarith
      push_cast at hlt
      linarith
    rw [updParticle_nowrap sc d part c hf hlen hlt1]
    have hlt2 : ({ part with progress := part.progress + PARTICLE_SPEED * d } : Particle).progress
        + PARTICLE_SPEED * d * (k : ℚ) < 1 := by
      dsimp only
      push_cast at hlt
      nlinarith [hlt]
    have hp2 : (0 : ℚ) ≤ ({ part with progress := part.progress + PARTICLE_SPEED * d } : Particle).progress := by
      dsimp only
      linarith
    rw [ih { part with progress := part.progress + PARTICLE_SPEED * d } hf hp2 hlt2]
    cases part
    simp only [Particle.mk.injEq, true_and, and_true]
    push_cast
    ring

theorem runUpdates_frameTimes (sc : CycleScen) (sys : ParticleSystem) (d : ℚ) (n : ℕ) :
    (runUpdates sc sys (frameTimes sys.lastFrame d n)).particles
        = sys.particles.map (fun part => (updParticle sc d)^[n] part) ∧
    (runUpdates sc sys (frameTimes sys.lastFrame d n)).lastFrame
        = sys.lastFrame + 1000 * d * (n : ℚ) := by
  induction n with
  | zero =>
    constructor
    · simp [runUpdates, frameTimes]
    · simp [runUpdates, frameTimes]
  | succ k ih =>
    have hsplit : frameTimes sys.lastFrame d (k + 1)
        = frameTimes sys.lastFrame d k ++ [sys.lastFrame + 1000 * d * ((k : ℚ) + 1)] := by
      unfold frameTimes
      rw [List.range_succ, List.map_append]
      simp
    rw [hsplit]
    unfold runUpdates at ih ⊢
    rw [List.foldl_append]
    simp only [List.foldl_cons, List.foldl_nil]
    set X := List.foldl (fun s2 t2 => updateParticles s2 sc t2) sys (frameTimes sys.lastFrame d k)
      with hX
    obtain ⟨ihp, ihl⟩ := ih
    have hdelta : (sys.lastFrame + 1000 * d * ((k : ℚ) + 1)
        - (sys.lastFrame + 1000 * d * (k : ℚ))) / 1000 = d := by
      have h5 : sys.lastFrame + 1000 * d * ((k : ℚ) + 1)
          - (sys.lastFrame + 1000 * d * (k : ℚ)) = 1000 * d := by ring
      rw [h5]
      norm_num
    constructor
    · show (updateParticles X sc (sys.lastFrame + 1000 * d * ((k : ℚ) + 1))).particles = _
      unfold updateParticles
      dsimp only
      rw [ihl, hdelta, ihp, List.map_map]
      apply List.map_congr_left
      intro part _
      simp only [Function.comp_apply]
      rw [Function.iterate_succ_apply']
    · show (updateParticles X sc (sys.lastFrame + 1000 * d * ((k : ℚ) + 1))).lastFrame = _
      unfold updateParticles
      dsimp only
      push_cast
      ring

/-- C7 (counterexample): the claim says progress only wraps on exceeding
1 + spread/2 and re-enters at -spread/2 on the SAME edge; in the code a particle at
progress 0.9 advanced for one second (delta 1, speed 0.3) reaches 1.2, wraps at
threshold 1 to 1.2 - 1 = 0.2, and moves to the NEXT edge (edgeIndex 0 to 1), so the
wrap does not keep it on the same edge and no spread parameter exists. -/
theorem c7_counterexample :
    (updateParticles c7Sys c7Scen 1000).particles.map (fun q => q.edgeIndex) = [1] ∧
    (updateParticles c7Sys c7Scen 1000).particles.map (fun q => q.progress) = [1 / 5] ∧
    ¬ ((updateParticles c7Sys c7Scen 1000).particles.map (fun q => q.edgeIndex) = [0]) := by
  have hfl : ⌊(6 : ℚ) / 5⌋ = 1 := by
    rw [Int.floor_eq_iff]
    constructor <;> norm_num
  have hu : updParticle c7Scen ((1000 - c7Sys.lastFrame) / 1000) c7Part
      = { cycleId := "c1", edgeIndex := 1, progress := 1 / 5, color := "#0f0" } := by
    unfold updParticle
    rw [show c7Scen.cycles.find? (fun c0 => decide (c0.id = c7Part.cycleId)) = some c7Cycle
      from rfl]
    try dsimp only
    rw [if_neg (by decide : ¬ (c7Cycle.edges.length = 0))]
    try dsimp only
    rw [wrapLoop_eq (c7Part.progress + PARTICLE_SPEED * ((1000 - c7Sys.lastFrame) / 1000))
      c7Part.edgeIndex c7Cycle.edges.length
      (by norm_num [c7Part, c7Sys, PARTICLE_SPEED]) (by decide)]
    have harg : c7Part.progress + PARTICLE_SPEED * ((1000 - c7Sys.lastFrame) / 1000)
        = (6 : ℚ) / 5 := by
      norm_num [c7Part, c7Sys, PARTICLE_SPEED]
    rw [harg, hfl]
    norm_num [c7Part, c7Cycle]
  unfold updateParticles
  dsimp only
  rw [show c7Sys.particles = [c7Part] from rfl]
  simp only [List.map_cons, List.map_nil]
  rw [hu]
  refine ⟨rfl, rfl, by decide⟩

/-- C7 (amended): under a constant per-frame delta d, running n frames maps every
particle through n applications of the per-particle update; a particle whose cycle
resolves with a non-empty edge list and which never reaches progress 1 accumulates
exactly initial progress + n × PARTICLE_SPEED × d with its edge unchanged; and
whenever the advanced progress p + PARTICLE_SPEED × d reaches or exceeds 1, the
update wraps it to its fractional part p2 - floor(p2) and advances the edge index by
floor(p2) positions modulo the cycle's edge count (the wrap threshold is 1, the
re-entry carries the overshoot, and the particle moves to the following edge rather
than re-entering the same one; no spread parameter exists in this version). -/
theorem c7_progress_and_wrap (sc : CycleScen) (sys : ParticleSystem) (d : ℚ) (n : ℕ)
    (hd : 0 ≤ d) :
    ((runUpdates sc sys (frameTimes sys.lastFrame d n)).particles
        = sys.particles.map (fun part => (updParticle sc d)^[n] part)) ∧
    (∀ part c, sc.cycles.find? (fun c0 => decide (c0.id = part.cycleId)) = some c →
       ¬ (c.edges.length = 0) → 0 ≤ part.progress →
       part.progress + PARTICLE_SPEED * d * (n : ℚ) < 1 →
       (updParticle sc d)^[n] part
          = { part with progress := part.progress + PARTICLE_SPEED * d * (n : ℚ) }) ∧
    (∀ part c, sc.cycles.find? (fun c0 => decide (c0.id = part.cycleId)) = some c →
       ¬ (c.edges.length = 0) → part.edgeIndex < c.edges.length →
       1 ≤ part.progress + PARTICLE_SPEED * d →
       updParticle sc d part
          = { part with
              progress := part.progress + PARTICLE_SPEED * d
                - ((⌊part.progress + PARTICLE_SPEED * d⌋ : ℤ) : ℚ),
              edgeIndex := (part.edgeIndex
                + (⌊part.progress + PARTICLE_SPEED * d⌋).toNat) % c.edges.length }) := by
  refine ⟨(runUpdates_frameTimes sc sys d n).1, ?_, ?_⟩
  · intro part c hf hlen hp hlt
    exact updParticle_iterate sc d n part c hf hlen hd hp hlt
  · intro part c hf hlen he h1
    unfold updParticle
    rw [hf]
    try dsimp only
    rw [if_neg hlen]
    try dsimp only
    rw [wrapLoop_eq _ _ _ (by linarith) he]

/-- C7 (witness): the amended theorem applied to the concrete one-cycle scenario: two
frames of one second each from progress 0 accumulate to 0.6 on the same edge. -/
theorem c7_witness :
    (updParticle c7Scen 1)^[2] c7PartB
      = { c7PartB with progress := c7PartB.progress + PARTICLE_SPEED * 1 * ((2 : ℕ) : ℚ) } :=
  (c7_progress_and_wrap c7Scen c7Sys 1 2 (by norm_num)).2.1 c7PartB c7Cycle (by rfl)
    (by norm_num [c7Cycle]) (by norm_num [c7PartB])
    (by norm_num [c7PartB, PARTICLE_SPEED])

theorem initParticleSystem_OK (sc : CycleScen) (vis : List String) (t0 : ℚ) :
    systemOKb sc (initParticleSystem sc vis t0) = true := by
  unfold systemOKb initParticleSystem
  dsimp only
  suffices h : ∀ (cl : List Cycle) (acc : List Particle),
      acc.all (particleOKb sc) = true →
      (cl.foldl (fun acc2 c =>
        if vis.contains c.id then
          acc2 ++ (List.range PARTICLES_PER_CYCLE).map
            (fun i => { cycleId := c.id, edgeIndex := 0,
                        progress := (i : ℚ) / (PARTICLES_PER_CYCLE : ℚ), color := c.color })
        else acc2) acc).all (particleOKb sc) = true by
    exact h sc.cycles [] rfl
  intro cl
  induction cl with
  | nil =>
    intro acc h
    simpa using h
  | cons c cs ih =>
    intro acc h
    simp only [List.foldl_cons]
    by_cases hv : vis.contains c.id
    · rw [if_pos hv]
      apply ih
      rw [List.all_append, h, Bool.true_and]
      rw [List.all_eq_true]
      intro part hpart
      rw [List.mem_map] at hpart
      obtain ⟨i, hi, rfl⟩ := hpart
      rw [List.mem_range] at hi
      unfold particleOKb
      dsimp only
      cases hf : sc.cycles.find? (fun c0 => decide (c0.id = c.id)) with
      | none => rfl
      | some c2 =>
        by_cases hl : c2.edges.length = 0
        · simp [hl]
        · have hb1 : (0 : ℚ) ≤ (i : ℚ) / (PARTICLES_PER_CYCLE : ℚ) := by
            unfold PARTICLES_PER_CYCLE
            positivity
          have hb2 : (i : ℚ) / (PARTICLES_PER_CYCLE : ℚ) < 1 := by
            unfold PARTICLES_PER_CYCLE at hi ⊢
            rw [div_lt_one (by norm_num)]
            exact_mod_cast hi
          have hb3 : 0 < c2.edges.length := Nat.pos_of_ne_zero hl
          simp [hl, hb1, hb2, hb3]
    · rw [if_neg hv]
      exact ih acc h

theorem updParticle_OK (sc : CycleScen) (delta : ℚ) (part : Particle) (hd : 0 ≤ delta)
    (h : particleOKb sc part = true) :
    particleOKb sc (updParticle sc delta part) = true := by
  unfold updParticle
  cases hf : sc.cycles.find? (fun c => decide (c.id = part.cycleId)) with
  | none =>
    dsimp only
    exact h
  | some c =>
    try dsimp only
    by_cases hl : c.edges.length = 0
    · rw [if_pos hl]
      exact h
    · rw [if_neg hl]
      try dsimp only
      unfold particleOKb at h ⊢
      rw [hf] at h
      dsimp only
      rw [hf]
      simp only [hl, decide_False, Bool.false_or, Bool.and_eq_true, decide_eq_true_eq] at h
      obtain ⟨⟨h1, h2⟩, h3⟩ := h
      have hsd : 0 ≤ PARTICLE_SPEED * delta := by
        have hs : (0 : ℚ) ≤ PARTICLE_SPEED := by norm_num [PARTICLE_SPEED]
        exact mul_nonneg hs hd
      have hp2 : 0 ≤ part.progress + PARTICLE_SPEED * delta := by linarith
      rw [wrapLoop_eq _ _ _ hp2 h3]
      dsimp only
      have hb1 : 0 ≤ part.progress + PARTICLE_SPEED * delta
          - ((⌊part.progress + PARTICLE_SPEED * delta⌋ : ℤ) : ℚ) := by
        have h4 := Int.floor_le (part.progress + PARTICLE_SPEED * delta)
        linarith
      have hb2 : part.progress + PARTICLE_SPEED * delta
          - ((⌊part.progress + PARTICLE_SPEED * delta⌋ : ℤ) : ℚ) < 1 := by
        have h4 := Int.lt_floor_add_one (part.progress + PARTICLE_SPEED * delta)
        linarith
      have hb3 : (part.edgeIndex
          + (⌊part.progress + PARTICLE_SPEED * delta⌋).toNat) % c.edges.length
          < c.edges.length := Nat.mod_lt _ (Nat.pos_of_ne_zero hl)
      simp [hl, hb1, hb2, hb3, Int.fract_nonneg, Int.fract_lt_one]

theorem runUpdates_OK (sc : CycleScen) (ts : List ℚ) :
    ∀ (sys : ParticleSystem), systemOKb sc sys = true → chainGE sys.lastFrame ts →
      systemOKb sc (runUpdates sc sys ts) = true := by
  induction ts with
  | nil =>
    intro sys h _
    simpa [runUpdates] using h
  | cons t ts2 ih =>
    intro sys h hch
    obtain ⟨h1, h2⟩ := hch
    unfold runUpdates at ih ⊢
    simp only [List.foldl_cons]
    apply ih
    · unfold systemOKb at h ⊢
      unfold updateParticles
      try dsimp only
      rw [List.all_eq_true] at h ⊢
      intro part hpart
      rw [List.mem_map] at hpart
      obtain ⟨q, hq, rfl⟩ := hpart
      apply updParticle_OK
      · have h3 : 0 ≤ t - sys.lastFrame := by linarith
        exact div_nonneg h3 (by norm_num)
      · exact h q hq
    · exact h2

/-- C9: every particle system produced by initParticleSystem keeps, under any
sequence of updateParticles calls at nondecreasing wall-clock instants (so every
frame delta is nonnegative), the invariant that each particle whose cycle id
resolves in the scenario to a cycle with a non-empty edge list has its progress in
[0, 1) and its edge index strictly below that cycle's edge count. -/
theorem c9_invariant (sc : CycleScen) (vis : List String) (t0 : ℚ) (ts : List ℚ)
    (hch : chainGE t0 ts) :
    systemOKb sc (runUpdates sc (initParticleSystem sc vis t0) ts) = true := by
  apply runUpdates_OK
  · exact initParticleSystem_OK sc vis t0
  · exact hch

/-- C9 (witness): the invariant theorem applied to the concrete one-cycle scenario
and two update instants. -/
theorem c9_witness :
    chainGE (0 : ℚ) [500, 1000] ∧
    systemOKb c7Scen
      (runUpdates c7Scen (initParticleSystem c7Scen ["c1"] 0) [500, 1000]) = true :=
  ⟨by norm_num [chainGE], c9_invariant c7Scen ["c1"] 0 [500, 1000] (by norm_num [chainGE])⟩

end DepGraph
